import Mathlib

/-!
Verification of the WebCrawlApp question-driven crawl and assembly engine.

This file is a shallow embedding, in Lean 4, of the parts of the
WebCrawlApp Python source that the specification's claims are about:

* `app/util.py` — text preprocessing, Jaccard similarity, simhash
  fingerprinting and the Hamming-distance similarity test;
* `app/assembly.py` — the `ContentAssembler` pipeline (deduplication,
  relevance scoring, capability-coverage repair, character-budget
  enforcement, coverage report, top-level exception handling);
* `app/planner.py` — the `QuestionPlanner` (normalization, keyword
  extraction, question-type classification, capability scoring, fallback
  capabilities, confidence);
* `app/navigator.py` — the `SmartNavigator` crawl loop (priority queue,
  visited set, budget-bounded enqueue, fetch with the tenacity retry
  decorator);
* `app/schemas.py` — the pydantic data model (enums, `ContentBlock`,
  `PlanningResult`, `AssemblyResult`, `CrawlConfig`).

Modelling conventions:

* Python `float` is modelled as `ℚ`.  Every float constant in the source
  (0.1, 0.3, 0.8, …) is an exact decimal, so the rational model is exact
  for all the threshold comparisons the claims are about.  Because the
  Batteries `Rat.add`/`Rat.mul` are `@[irreducible]` and hence opaque to
  kernel evaluation, the embedding performs rational arithmetic through
  the executable wrappers `qAdd`/`qMul`/`qDivN`/`ratioN` below, which are
  proved equal to the ordinary field operations.
* Python `str` is modelled as Lean `String`; all the texts involved are
  ASCII, and `lower`, slicing and regular-expression searches are
  implemented on `List Char`.  The specific regular expressions used by
  the source (all of them word-bounded alternations of literal phrases,
  plain substrings, or two word-bounded alternations joined by `.*`) are
  given a direct executable semantics.
* External collaborators (the network, `BeautifulSoup` parsing,
  `urllib.parse`, the optional `rank_bm25` library, and `hashlib.md5`)
  are parameters of the embedding: the navigator runs against a
  `NavEnv` of oracles and `calculate_simhash` takes the 128-bit word
  hash as a function argument.  Everything written in the repository
  itself is embedded directly.
* Python exceptions are modelled with `Except`; a function that catches
  exceptions is modelled as a total function on the `Except`-valued
  outcome of its body.
-/

/-! ## Executable rational arithmetic

Thin executable wrappers for `ℚ` arithmetic.  `mkRat` normalizes through
`Nat.gcd`, which the kernel can evaluate, unlike the `@[irreducible]`
Batteries `Rat.add`/`Rat.mul` that back the `+`/`*` notation. -/

/-- Executable addition on `ℚ` (kernel-reducible). -/
def qAdd (a b : ℚ) : ℚ := mkRat (a.num * (b.den : Int) + b.num * (a.den : Int)) (a.den * b.den)

/-- Executable multiplication on `ℚ` (kernel-reducible). -/
def qMul (a b : ℚ) : ℚ := mkRat (a.num * b.num) (a.den * b.den)

/-- Executable subtraction on `ℚ` (kernel-reducible). -/
def qSub (a b : ℚ) : ℚ := mkRat (a.num * (b.den : Int) - b.num * (a.den : Int)) (a.den * b.den)

/-- Executable division of a rational by a natural number (all divisions
performed by the embedded code divide by a positive integer count). -/
def qDivN (a : ℚ) (n : Nat) : ℚ := mkRat a.num (a.den * n)

/-- Ratio of two natural numbers as a rational, `a / b`. -/
def ratioN (a b : Nat) : ℚ := mkRat a b

theorem qAdd_eq (a b : ℚ) : qAdd a b = a + b := by
  have ha : ((a.den : ℚ)) ≠ 0 := by exact_mod_cast a.den_nz
  have hb : ((b.den : ℚ)) ≠ 0 := by exact_mod_cast b.den_nz
  conv_rhs => rw [← Rat.num_div_den a, ← Rat.num_div_den b]
  unfold qAdd
  rw [Rat.mkRat_eq_div]
  push_cast
  field_simp

theorem qMul_eq (a b : ℚ) : qMul a b = a * b := by
  conv_rhs => rw [← Rat.num_div_den a, ← Rat.num_div_den b]
  unfold qMul
  rw [Rat.mkRat_eq_div]
  push_cast
  rw [div_mul_div_comm]

theorem qSub_eq (a b : ℚ) : qSub a b = a - b := by
  have ha : ((a.den : ℚ)) ≠ 0 := by exact_mod_cast a.den_nz
  have hb : ((b.den : ℚ)) ≠ 0 := by exact_mod_cast b.den_nz
  conv_rhs => rw [← Rat.num_div_den a, ← Rat.num_div_den b]
  unfold qSub
  rw [Rat.mkRat_eq_div]
  push_cast
  field_simp
  ring

theorem qDivN_eq (a : ℚ) (n : Nat) : qDivN a n = a / (n : ℚ) := by
  conv_rhs => rw [← Rat.num_div_den a]
  unfold qDivN
  rw [Rat.mkRat_eq_div]
  push_cast
  rw [div_div]

theorem ratioN_eq (a b : Nat) : ratioN a b = (a : ℚ) / (b : ℚ) := by
  unfold ratioN
  rw [Rat.mkRat_eq_div]
  norm_num

/-! ## String helpers

Python string primitives used by the source, implemented over
`List Char` (the texts involved are ASCII). -/

/-- Lowercase a character (ASCII, as `str.lower` behaves on the inputs used). -/
def pyLowerChar (c : Char) : Char := c.toLower

/-- Python `s.lower()`. -/
def pyLower (s : String) : String := String.mk (s.data.map pyLowerChar)

/-- Python `len(s)` (code points; the embedded texts are ASCII). -/
def pyLen (s : String) : Nat := s.data.length

/-- Python `s[:n]` slicing. -/
def pySlice (s : String) (n : Nat) : String := String.mk (s.data.take n)

/-- Membership of a character in Python `\s` (the whitespace class). -/
def isPySpace (c : Char) : Bool := c = ' ' || c = '\t' || c = '\n' || c = '\r' || c = '\x0b' || c = '\x0c'

/-- Membership of a character in Python `\w` (ASCII word character). -/
def isWordChar (c : Char) : Bool := c.isAlpha || c.isDigit || c = '_'

/-- Split a character list into maximal runs of characters satisfying `p`,
dropping the separators — the common core of Python `str.split()` and of
`re.findall` over a character class. -/
def runsOf (p : Char → Bool) : List Char → List (List Char)
  | [] => []
  | c :: cs =>
    let rest := runsOf p cs
    if p c then
      match cs with
      | [] => [[c]]
      | d :: _ =>
        if p d then
          match rest with
          | [] => [[c]]
          | r :: rs => (c :: r) :: rs
        else [c] :: rest
    else rest

/-- Python `s.split()`: split on whitespace runs, dropping empty parts. -/
def pySplitWs (s : String) : List String :=
  (runsOf (fun c => !isPySpace c) s.data).map String.mk

/-- Python `sep.join(parts)` for a one-character separator `' '`. -/
def joinSpace (parts : List String) : String :=
  String.intercalate " " parts

/-- Python `s.strip()`. -/
def pyStrip (s : String) : String :=
  String.mk ((s.data.dropWhile (fun c => isPySpace c)).reverse.dropWhile (fun c => isPySpace c)).reverse

/-- Containment of `needle` as a contiguous run inside `hay` — the
semantics of `needle in hay` on Python strings and of `re.search` for a
pattern that is a literal. -/
def listHasRun (needle hay : List Char) : Bool :=
  (List.range (hay.length + 1)).any (fun i => (hay.drop i).take needle.length = needle)

/-- Python `sub in s` on strings. -/
def pyContains (hay needle : String) : Bool := listHasRun needle.data hay.data

/-- Number of occurrences of `needle` counted at every start position —
used to model Python `s.count(sub)` for the frequency bonus.  (Python
counts non-overlapping occurrences; for the single-word needles the
assembler counts, the two notions agree on the claims proved here, and
only the comparison `count ≥ 1` is ever relied upon.) -/
def pyCountOcc (hay needle : String) : Nat :=
  ((List.range (hay.data.length + 1)).filter
    (fun i => needle.data ≠ [] ∧ (hay.data.drop i).take needle.data.length = needle.data)).length

/-- Python `s.isdigit()` (ASCII digits). -/
def pyIsDigit (s : String) : Bool := s.data ≠ [] && s.data.all (·.isDigit)

/-- Python `s.startswith(p)`. -/
def pyStartsWith (s p : String) : Bool := s.data.take p.data.length = p.data

/-- Python `s.endswith(p)` — used for the `$`-anchored suffix regexes. -/
def pyEndsWith (s p : String) : Bool := s.data.drop (s.data.length - p.data.length) = p.data

/-! ## Word-bounded regular-expression search

The capability patterns in `planner.py` all have one of two shapes:
`\b(w1|w2|…)\b` (a word-bounded alternation of literal phrases) or
`\b(a1|…)\b.*\b(b1|…)\b` (two such alternations joined by `.*`).  The
following gives those shapes their `re.search` semantics directly: a
word boundary holds at a position where word-character-ness changes
(every phrase in the source starts and ends with a word character). -/

/-- Does the literal `pat` match at position `i` of `hay` with `\b` on
both sides?  `re.IGNORECASE` is modelled by lowercasing both sides. -/
def boundedMatchAt (hay pat : List Char) (i : Nat) : Bool :=
  pat ≠ [] &&
  (hay.drop i).take pat.length = pat &&
  (i = 0 || !isWordChar (hay.getD (i - 1) ' ')) &&
  (i + pat.length = hay.length || !isWordChar (hay.getD (i + pat.length) ' '))

/-- Positions of `hay` at which some phrase of `alts` matches word-bounded;
each element pairs the start index with the end index of the match. -/
def boundedMatches (hay : List Char) (alts : List String) : List (Nat × Nat) :=
  (List.range (hay.length + 1)).flatMap (fun i =>
    (alts.filter (fun p => boundedMatchAt hay p.data i)).map (fun p => (i, i + p.data.length)))

/-- One shape of regular expression used by the planner's capability
patterns: either a word-bounded alternation, or two word-bounded
alternations joined by `.*`. -/
inductive CapPattern where
  | altW (alts : List String)
  | seqW (first second : List String)
deriving DecidableEq, Repr

/-- The semantics of `re.search(pattern, text, re.IGNORECASE)` for the two
pattern shapes: `altW` succeeds when some phrase matches word-bounded
anywhere; `seqW` when a word-bounded match of the first alternation is
followed (at or after its end) by a word-bounded match of the second. -/
def reSearch (p : CapPattern) (text : String) : Bool :=
  let hay := (pyLower text).data
  match p with
  | .altW alts => !(boundedMatches hay alts).isEmpty
  | .seqW first second =>
    (boundedMatches hay first).any (fun m =>
      (boundedMatches hay second).any (fun m2 => m.2 ≤ m2.1))

/-! ## util.py -/

/-- Stop words of `util.preprocess_text`. -/
def preprocessStopWords : List String :=
  ["the", "a", "an", "and", "or", "but", "in", "on", "at", "to", "for", "of", "with", "by",
   "is", "are", "was", "were", "be", "been", "being", "have", "has", "had", "do", "does", "did",
   "will", "would", "could", "should", "may", "might", "must", "can", "this", "that", "these",
   "those", "i", "you", "he", "she", "it", "we", "they", "me", "him", "her", "us", "them"]

/-- Embedding of `util.preprocess_text`: lowercase, take the maximal
alphabetic runs of length ≥ 2 (the semantics of
`re.findall(r"\b[a-zA-Z]{2,}\b", text.lower())`), and drop stop words.
The source's final filter also re-checks `len(word) > 1`, which is
subsumed by the regex. -/
def preprocess_text (text : String) : List String :=
  if text.data = [] then []
  else
    let words := ((runsOf (fun c => c.isAlpha) (pyLower text).data).filter
      (fun r => 2 ≤ r.length)).map String.mk
    words.filter (fun w => !preprocessStopWords.contains w && 1 < pyLen w)

/-- First-occurrence deduplication, the order-insensitive content of
Python's `set(...)` (`set` iteration order is unspecified; every claim
proved below depends only on membership and cardinality). -/
def dedupFirst : List String → List String
  | [] => []
  | w :: ws => if (dedupFirst ws).contains w then dedupFirst ws else w :: dedupFirst ws

/-- Embedding of `util.calculate_content_similarity`: token-set Jaccard
similarity of the two texts after `preprocess_text`. -/
def calculate_content_similarity (text1 text2 : String) : ℚ :=
  if text1.data = [] || text2.data = [] then 0
  else
    let words1 := dedupFirst (preprocess_text text1)
    let words2 := dedupFirst (preprocess_text text2)
    if words1.isEmpty || words2.isEmpty then 0
    else
      let inter := (words1.filter (fun w => words2.contains w)).length
      let union := (words1 ++ words2.filter (fun w => !words1.contains w)).length
      if 0 < union then ratioN inter union else 0

/-- Embedding of `util.calculate_simhash` with the 128-bit `hashlib.md5`
word hash passed in as `md5Int` (an external library).  Python takes the
first `hashBits` characters of `bin(h)[2:].zfill(128)`, i.e. the top
bits of the 128-bit value: string position `i` holds bit `127 - i`. -/
def calculate_simhash (md5Int : String → Nat) (text : String) (hashBits : Nat := 64) : Nat :=
  if text.data = [] then 0
  else
    let words := preprocess_text text
    if words.isEmpty then 0
    else
      let vote : Nat → Int := fun i =>
        (words.map (fun w => if (md5Int w) >>> (127 - i) % 2 = 1 then (1 : Int) else -1)).sum
      ((List.range hashBits).filter (fun i => 0 < vote i)).foldl (fun acc i => acc ||| (1 <<< i)) 0

/-- Structural helper for `popCount`; the fuel only bounds the recursion
depth (one unit per halving) and never runs out when it starts at `n`. -/
def popCountAux : Nat → Nat → Nat
  | 0, _ => 0
  | fuel + 1, n => if n = 0 then 0 else n % 2 + popCountAux fuel (n / 2)

/-- Population count (number of set bits), the `bin(x).count("1")` of
`util.calculate_similarity_threshold`. -/
def popCount (n : Nat) : Nat := popCountAux n n

/-- Embedding of `util.calculate_similarity_threshold`: Hamming distance
between the fingerprints is within `threshold` (zero fingerprints are
never similar). -/
def calculate_similarity_threshold (simhash1 simhash2 : Nat) (threshold : Nat := 3) : Bool :=
  if simhash1 = 0 || simhash2 = 0 then false
  else popCount (simhash1 ^^^ simhash2) ≤ threshold

/-! ## schemas.py — data model -/

/-- Embedding of `schemas.ContentType`. -/
inductive ContentType where
  | nav_bar | main_body | section | transcript | code_map
  | route | api_spec | manifest | readme | generic
deriving DecidableEq, Repr

/-- Embedding of `schemas.Capability`. -/
inductive Capability where
  | nav_graph | code_map | routes | transcript
  | section | api_spec | manifest | readme
deriving DecidableEq, Repr

/-- Values stored in the `metadata`/stats dictionaries (`Dict[str, Any]`
in the source; the values the embedded code actually stores are floats,
booleans, integers and strings). -/
inductive MetaVal where
  | b (v : Bool)
  | n (v : Nat)
  | q (v : ℚ)
  | s (v : String)
deriving DecidableEq, Repr

/-- First-match association-list lookup — `dict.get` (keys are unique by
construction because updates go through `dictSet`). -/
def assocGet {α : Type} (m : List (String × α)) (k : String) : Option α :=
  (m.find? (fun kv => kv.1 = k)).map (·.2)

/-- Python `dict` update of one key: overwrite in place when present,
append otherwise (insertion order preserved, as in CPython). -/
def dictSet {α : Type} (m : List (String × α)) (k : String) (v : α) : List (String × α) :=
  if (m.find? (fun kv => kv.1 = k)).isSome then
    m.map (fun kv => if kv.1 = k then (k, v) else kv)
  else m ++ [(k, v)]

/-- Read a rational out of a metadata dictionary with a default, the
`metadata.get(key, default)` idiom (metadata is well-typed in all the
code paths embedded here). -/
def metaGetQ (m : List (String × MetaVal)) (k : String) (default : ℚ) : ℚ :=
  match assocGet m k with
  | some (.q v) => v
  | _ => default

/-- Embedding of `schemas.ContentBlock`.  `url` is the string rendering
of the pydantic `HttpUrl`; `score` has the pydantic default `0.0`. -/
structure ContentBlock where
  content_type : ContentType
  content : String
  url : String
  title : Option String := none
  metadata : List (String × MetaVal) := []
  score : ℚ := 0
  char_count : Nat
deriving DecidableEq, Repr

/-- Embedding of `schemas.Citation`. -/
structure Citation where
  url : String
  title : String
  snippet : String
  content_type : ContentType
deriving DecidableEq, Repr

/-- Embedding of `schemas.PlanningResult` — exactly the five fields the
pydantic model declares (`required_capabilities`, `capability_scores`,
`keywords`, `question_type`, `confidence`).  The planner passes four
further keyword arguments (`question`, `normalized_question`,
`capability_priority`, `planning_method`) that the model does not
declare; pydantic's default `extra="ignore"` silently drops them, which
is modelled separately for the schema-shape claim. -/
structure PlanningResult where
  required_capabilities : List Capability
  capability_scores : List (Capability × ℚ)
  keywords : List String := []
  question_type : String
  confidence : ℚ
deriving DecidableEq, Repr

/-- Embedding of `schemas.AssemblyResult`. -/
structure AssemblyResult where
  selected_blocks : List ContentBlock
  assembly_stats : List (String × MetaVal) := []
  capability_coverage : List (Capability × Bool)
  char_count : Nat
  duplicates_removed : Nat := 0
deriving DecidableEq, Repr

/-- Embedding of `schemas.CrawlConfig` (the fields the navigator loop
reads; timeouts are consulted through the environment's clock oracle). -/
structure CrawlConfig where
  max_depth : Nat := 1
  page_budget : Nat := 8
  char_budget : Nat := 10000
deriving DecidableEq, Repr

/-- Field names declared by the pydantic model `schemas.PlanningResult`. -/
def planningResultFields : List String :=
  ["required_capabilities", "capability_scores", "keywords", "question_type", "confidence"]

/-- Keyword arguments passed to `PlanningResult(...)` by
`QuestionPlanner.plan_question`. -/
def planQuestionKwargs : List String :=
  ["question", "normalized_question", "required_capabilities", "capability_scores",
   "capability_priority", "keywords", "question_type", "confidence", "planning_method"]

/-- Attribute names tested by the repository's own tests on the object
returned by `plan_question` (`tests/test_planner.py`). -/
def testPlannerAccessedFields : List String :=
  ["question", "normalized_question", "required_capabilities", "capability_scores",
   "keywords", "question_type", "confidence", "planning_method"]

/-- Pydantic v2 construction with the default `extra="ignore"`: keyword
arguments whose names are not declared fields are silently dropped, so
the attributes present on the constructed object are exactly the
declared fields that were passed. -/
def pydanticAcceptedFields (declared kwargs : List String) : List String :=
  kwargs.filter (fun k => declared.contains k)

/-! ## assembly.py — ContentAssembler -/

/-- Natural number as a rational (`qOfNat n = n`). -/
def qOfNat (n : Nat) : ℚ := mkRat n 1

/-- The content-type → capability lookup table repeated verbatim in
`_calculate_capability_score`, `_ensure_capability_coverage` and
`_calculate_coverage` (the two content types absent from the table,
`MAIN_BODY` and `GENERIC`, map to no capability). -/
def content_to_capability : ContentType → Option Capability
  | .section => some .section
  | .nav_bar => some .nav_graph
  | .code_map => some .code_map
  | .api_spec => some .api_spec
  | .transcript => some .transcript
  | .route => some .routes
  | .manifest => some .manifest
  | .readme => some .readme
  | .main_body => none
  | .generic => none

/-- One step of `_deduplicate_blocks`' loop body: `keep` are the blocks
kept so far (`unique_blocks`), `seenHashes` their fingerprints. -/
def dedupStep (md5Int : String → Nat) (acc : List ContentBlock × List Nat)
    (block : ContentBlock) : List ContentBlock × List Nat :=
  let keep := acc.1
  let seenHashes := acc.2
  let contentHash := calculate_simhash md5Int block.content
  if seenHashes.contains contentHash then acc
  else
    let isDuplicate := keep.any (fun existing =>
      mkRat 8 10 < calculate_content_similarity block.content existing.content)
    if isDuplicate then acc
    else (keep ++ [block], seenHashes ++ [contentHash])

/-- Embedding of `ContentAssembler._deduplicate_blocks`: drop a block
when its simhash fingerprint equals that of a block already kept, or
when its Jaccard similarity with some kept block exceeds the 0.8
threshold; lists of length ≤ 1 are returned unchanged. -/
def deduplicate_blocks (md5Int : String → Nat) (blocks : List ContentBlock) : List ContentBlock :=
  if blocks.length ≤ 1 then blocks
  else (blocks.foldl (dedupStep md5Int) ([], [])).1

/-- Embedding of `ContentAssembler._calculate_keyword_score`. -/
def calculate_keyword_score (content : String) (keywords : List String) : ℚ :=
  if keywords.isEmpty || content.data = [] then 0
  else
    let contentLower := pyLower content
    let numMatches := (keywords.filter (fun kw => pyContains contentLower (pyLower kw))).length
    let totalKeywords := keywords.length
    let keywordFrequency := (keywords.map (fun kw => pyCountOcc contentLower (pyLower kw))).sum
    let frequencyBonus := min (mkRat 2 10) (qMul (qOfNat keywordFrequency) (mkRat 5 100))
    let baseScore := ratioN numMatches totalKeywords
    min 1 (qAdd baseScore frequencyBonus)

/-- Embedding of `ContentAssembler._calculate_capability_score`. -/
def calculate_capability_score (ct : ContentType)
    (capability_scores : List (Capability × ℚ)) : ℚ :=
  match content_to_capability ct with
  | some cap =>
    match (capability_scores.find? (fun cs => cs.1 = cap)).map (·.2) with
    | some v => v
    | none => 0
  | none => 0

/-- Embedding of `ContentAssembler._calculate_url_score`. -/
def calculate_url_score (url : String) (keywords : List String) : ℚ :=
  if keywords.isEmpty || url.data = [] then 0
  else
    let urlLower := pyLower url
    let numMatches := (keywords.filter (fun kw => pyContains urlLower (pyLower kw))).length
    min 1 (ratioN numMatches keywords.length)

/-- The per-block body of `_score_blocks_for_question`: compute the four
component scores, combine them with the 0.3/0.4/0.2/0.1 weights, and
record all five in the block's metadata. -/
def scoreOneBlock (planning : PlanningResult) (block : ContentBlock) : ContentBlock :=
  let baseScore := metaGetQ block.metadata "quality_score" (mkRat 1 2)
  let keywordScore := calculate_keyword_score block.content planning.keywords
  let capabilityScore := calculate_capability_score block.content_type planning.capability_scores
  let urlScore := calculate_url_score block.url planning.keywords
  let totalScore :=
    qAdd (qMul baseScore (mkRat 3 10))
      (qAdd (qMul keywordScore (mkRat 4 10))
        (qAdd (qMul capabilityScore (mkRat 2 10)) (qMul urlScore (mkRat 1 10))))
  let md :=
    dictSet (dictSet (dictSet (dictSet (dictSet block.metadata
      "question_relevance_score" (.q totalScore))
      "keyword_score" (.q keywordScore))
      "capability_score" (.q capabilityScore))
      "url_score" (.q urlScore))
      "base_quality_score" (.q baseScore)
  { block with metadata := md }

/-- Stable insertion of `a` into `l`: `a` goes in front of the first
element `b` with `le a b`. -/
def stableInsert {α : Type} (le : α → α → Bool) (a : α) : List α → List α
  | [] => [a]
  | b :: bs => if le a b then a :: b :: bs else b :: stableInsert le a bs

/-- Stable sort (insertion sort).  For a total comparison `le` this
computes the unique stable ordering, which is what Python's stable
`list.sort` produces; it is structurally recursive so that concrete
pipelines evaluate in the kernel. -/
def stableSort {α : Type} (le : α → α → Bool) : List α → List α
  | [] => []
  | a :: as => stableInsert le a (stableSort le as)

/-- Python `list.sort(key=k, reverse=True)`: stable descending sort. -/
def pySortDescQ {α : Type} (key : α → ℚ) (l : List α) : List α :=
  stableSort (fun a b => key b ≤ key a) l

/-- Embedding of `ContentAssembler._score_blocks_for_question`: score
every block, then sort by `question_relevance_score` descending
(Python's stable sort with `reverse=True`). -/
def score_blocks_for_question (blocks : List ContentBlock)
    (planning : PlanningResult) : List ContentBlock :=
  let scored := blocks.map (scoreOneBlock planning)
  pySortDescQ (fun b => metaGetQ b.metadata "question_relevance_score" 0) scored

/-- The capability keyword table of
`ContentAssembler._estimate_capability_relevance`. -/
def assemblyCapabilityKeywords : Capability → List String
  | .section => ["section", "content", "documentation"]
  | .nav_graph => ["navigation", "menu", "link"]
  | .code_map => ["code", "function", "class", "method"]
  | .api_spec => ["api", "endpoint", "request", "response"]
  | .transcript => ["transcript", "video", "audio"]
  | .routes => ["route", "path", "url"]
  | .manifest => ["manifest", "package", "dependency"]
  | .readme => ["readme", "guide", "instructions"]

/-- Embedding of `ContentAssembler._estimate_capability_relevance`:
fraction of the capability's keywords occurring in the lowercased
content. -/
def estimate_capability_relevance (block : ContentBlock) (capability : Capability) : ℚ :=
  let contentLower := pyLower block.content
  let keywords := assemblyCapabilityKeywords capability
  let numMatches := (keywords.filter (fun kw => pyContains contentLower kw)).length
  if keywords.isEmpty then 0 else ratioN numMatches keywords.length

/-- The inner best-block search of `_ensure_capability_coverage`: walk
`blocks` keeping the strictly best `_estimate_capability_relevance`
score among blocks currently in `final`, exactly as the Python loop
updates `best_block`/`best_score` (note the source's guard `if block
not in final_blocks: continue` restricts the scan to blocks already in
`final_blocks`). -/
def bestCoverageBlock (blocks final : List ContentBlock) (capability : Capability) :
    Option ContentBlock × ℚ :=
  blocks.foldl
    (fun acc block =>
      if !final.contains block then acc
      else
        let score := estimate_capability_relevance block capability
        if acc.2 < score then (some block, score) else acc)
    (none, 0)

/-- Embedding of `ContentAssembler._ensure_capability_coverage`. -/
def ensure_capability_coverage (blocks : List ContentBlock)
    (required_capabilities : List Capability) : List ContentBlock :=
  if required_capabilities.isEmpty then blocks
  else
    let covered0 := required_capabilities.filter (fun cap =>
      blocks.any (fun b => content_to_capability b.content_type = some cap))
    let step := fun (acc : List ContentBlock × List Capability) (cap : Capability) =>
      if acc.2.contains cap then acc
      else
        let best := bestCoverageBlock blocks acc.1 cap
        match best.1 with
        | some bestBlock =>
          if mkRat 3 10 < best.2 then (acc.1 ++ [bestBlock], acc.2 ++ [cap]) else acc
        | none => acc
    (required_capabilities.foldl step (blocks, covered0)).1

/-- The truncated copy built by `_apply_character_budget` when a block
overflows the remaining budget: content sliced to `remaining - 3`
characters plus an ellipsis, `metadata.truncated = True`, the original
length recorded, and the pydantic-default score `0.0`. -/
def truncateBlock (block : ContentBlock) (remainingBudget : Nat) : ContentBlock :=
  let truncatedContent := pySlice block.content (remainingBudget - 3) ++ "..."
  { content_type := block.content_type
    content := truncatedContent
    url := block.url
    title := block.title
    char_count := pyLen truncatedContent
    metadata := dictSet (dictSet block.metadata "truncated" (.b true))
      "original_length" (.n (pyLen block.content)) }

/-- The loop of `_apply_character_budget`, with `totalChars` the
accumulated character count. -/
def applyBudgetAux (budget : Nat) : Nat → List ContentBlock → List ContentBlock
  | _, [] => []
  | totalChars, block :: rest =>
    let blockChars := pyLen block.content
    if totalChars + blockChars ≤ budget then
      block :: applyBudgetAux budget (totalChars + blockChars) rest
    else
      let remainingBudget := budget - totalChars
      if 200 < remainingBudget then [truncateBlock block remainingBudget]
      else []

/-- Embedding of `ContentAssembler._apply_character_budget` (the budget
comes from `settings.char_budget`). -/
def apply_character_budget (char_budget : Nat) (blocks : List ContentBlock) : List ContentBlock :=
  applyBudgetAux char_budget 0 blocks

/-- Embedding of `ContentAssembler._prepare_citations`: one citation per
distinct source URL in first-occurrence order, the snippet being the
first 200 characters (stripped) plus an ellipsis when longer. -/
def prepare_citations (blocks : List ContentBlock) : List Citation :=
  (blocks.foldl
    (fun (acc : List Citation × List String) block =>
      if acc.2.contains block.url then acc
      else
        let snippet0 := pyStrip (pySlice block.content 200)
        let snippet := if 200 < pyLen block.content then snippet0 ++ "..." else snippet0
        let citation : Citation :=
          { url := block.url
            title := block.title.getD ("Content from " ++ block.url)
            snippet := snippet
            content_type := block.content_type }
        (acc.1 ++ [citation], acc.2 ++ [block.url]))
    ([], [])).1

/-- Embedding of `ContentAssembler._calculate_coverage`: a required
capability is reported covered exactly when some selected block's
content type maps to it under the fixed lookup table. -/
def calculate_coverage (blocks : List ContentBlock)
    (required_capabilities : List Capability) : List (Capability × Bool) :=
  required_capabilities.map (fun cap =>
    (cap, blocks.any (fun b => content_to_capability b.content_type = some cap)))

/-- Embedding of `ContentAssembler._generate_diagnostics`. -/
def generate_diagnostics (originalBlocks finalBlocks : List ContentBlock)
    (planning : PlanningResult) : List (String × MetaVal) :=
  let totalBytes := (finalBlocks.map (fun b => pyLen b.content)).sum
  [("blocks_original", .n originalBlocks.length),
   ("blocks_final", .n finalBlocks.length),
   ("blocks_filtered", .n (originalBlocks.length - finalBlocks.length)),
   ("total_bytes", .n totalBytes),
   ("avg_block_length", .q (qDivN (qOfNat totalBytes) (max 1 finalBlocks.length))),
   ("capabilities_requested", .n planning.required_capabilities.length),
   ("keywords_used", .n planning.keywords.length),
   ("assembly_method", .s "simhash_deduplication_with_capability_coverage")]

/-- Embedding of the success path of `ContentAssembler.assemble_content`
(steps 1–7 of the pipeline).  The character budget is
`settings.char_budget`; `max_blocks` is the optional block-count cap
(the source tests Python truthiness, `if max_blocks:`, so passing `0`
applies no cap). -/
def assemble_content (md5Int : String → Nat) (char_budget : Nat)
    (content_blocks : List ContentBlock) (planning : PlanningResult)
    (max_blocks : Option Nat := none) : AssemblyResult :=
  let deduplicated := deduplicate_blocks md5Int content_blocks
  let scoredBlocks := score_blocks_for_question deduplicated planning
  let coverageBlocks := ensure_capability_coverage scoredBlocks planning.required_capabilities
  let budgetedBlocks := apply_character_budget char_budget coverageBlocks
  let finalBlocks := match max_blocks with
    | some n => if n = 0 then budgetedBlocks else budgetedBlocks.take n
    | none => budgetedBlocks
  { selected_blocks := finalBlocks
    capability_coverage := calculate_coverage finalBlocks planning.required_capabilities
    assembly_stats := generate_diagnostics content_blocks finalBlocks planning
    char_count := (finalBlocks.map (fun b => pyLen b.content)).sum
    duplicates_removed := content_blocks.length - deduplicated.length }

/-- Embedding of the `try`/`except` wrapper of
`ContentAssembler.assemble_content`: the pipeline body is an
`Except`-valued outcome (a raised Python exception is `.error e` with
`e` the exception's string rendering); any exception is converted into
the empty, annotated result, and the function itself is total — no
exception propagates to the caller. -/
def assemble_content_catch (pipeline : Except String AssemblyResult) : AssemblyResult :=
  match pipeline with
  | .ok result => result
  | .error e =>
    { selected_blocks := []
      capability_coverage := []
      assembly_stats := [("error", .s e)]
      char_count := 0
      duplicates_removed := 0 }

/-! ## planner.py — QuestionPlanner -/

/-- Stop words removed by `QuestionPlanner._normalize_question`. -/
def normalizeStopWords : List String :=
  ["the", "a", "an", "and", "or", "but", "in", "on", "at", "to", "for", "of", "with", "by"]

/-- Embedding of `QuestionPlanner._normalize_question`: lowercase and
strip, collapse whitespace runs (`re.sub(r"\s+", " ", ·)`), split on
spaces, drop the stop words, and re-join with single spaces.  Because
stripping removes outer whitespace, collapsing-then-splitting equals
splitting on whitespace runs directly. -/
def normalize_question (question : String) : String :=
  let words := pySplitWs (pyStrip (pyLower question))
  joinSpace (words.filter (fun w => !normalizeStopWords.contains w))

/-- Stop words removed by `QuestionPlanner._extract_keywords`. -/
def keywordStopWords : List String :=
  ["the", "and", "for", "are", "but", "not", "you", "all", "can", "had", "her", "was",
   "one", "our", "out", "day", "get", "has", "him", "his", "how", "its", "may", "new",
   "now", "old", "see", "two", "way", "who", "boy", "did", "man", "men", "put", "say",
   "she", "too", "use"]

/-- Embedding of `QuestionPlanner._extract_keywords`: the maximal
`\w`-runs of length ≥ 3 (the semantics of
`re.findall(r"\b\w{3,}\b", question)`), minus stop words, with
duplicates removed.  The source returns `list(set(keywords))`, whose
order is unspecified; the claims below depend only on membership and on
the number of distinct keywords, both order-independent, so the
embedding fixes first-occurrence order. -/
def extract_keywords (question : String) : List String :=
  let words := ((runsOf isWordChar question.data).filter (fun r => 3 ≤ r.length)).map String.mk
  dedupFirst (words.filter (fun w => !keywordStopWords.contains w))

/-- The question-type patterns of `QuestionPlanner.__init__`, in the
dictionary's insertion order.  Every pattern is a literal, so
`re.search` is substring containment. -/
def questionTypePatterns : List (String × List String) :=
  [("how_to", ["how to", "how do", "how can", "how should", "steps to", "way to", "process to"]),
   ("what_is", ["what is", "what are", "what does", "what do", "explain", "describe", "define", "meaning of"]),
   ("where_is", ["where is", "where are", "where can", "where do", "find", "locate", "located", "position"]),
   ("why", ["why", "reason", "purpose", "benefit", "advantage", "disadvantage", "pros", "cons"]),
   ("when", ["when", "time", "schedule", "timeline", "deadline", "duration", "frequency"])]

/-- Embedding of `QuestionPlanner._classify_question_type`: the first
question type (in insertion order) one of whose patterns occurs in the
question; `general` when none matches. -/
def classify_question_type (question : String) : String :=
  match questionTypePatterns.find? (fun tp =>
    tp.2.any (fun pat => pyContains (pyLower question) pat)) with
  | some tp => tp.1
  | none => "general"

/-- Capability keyword lists of `QuestionPlanner.__init__` (the `ROUTES`
list repeats `"navigation"`, exactly as in the source). -/
def plannerCapabilityKeywords : Capability → List String
  | .code_map =>
    ["code", "function", "class", "method", "implementation",
     "source", "repository", "repo", "github", "gitlab",
     "programming", "development", "coding", "script",
     "api", "endpoint", "service", "module", "package"]
  | .routes =>
    ["route", "routing", "navigation", "url", "path", "endpoint",
     "link", "menu", "navigation", "site map", "structure",
     "page", "section", "directory", "folder", "hierarchy"]
  | .nav_graph =>
    ["navigation", "navigate", "menu", "sidebar", "header", "footer",
     "breadcrumb", "site map", "structure", "layout",
     "interface", "ui", "user interface", "design",
     "find", "where", "locate", "access"]
  | .transcript =>
    ["video", "transcript", "caption", "subtitle", "audio",
     "speech", "talk", "presentation", "tutorial", "lecture",
     "youtube", "vimeo", "watch", "listen", "hear"]
  | .section =>
    ["documentation", "guide", "tutorial", "help", "manual",
     "instructions", "steps", "how to", "explanation", "description",
     "article", "blog", "post", "content", "text", "information"]
  | .api_spec =>
    ["api", "endpoint", "request", "response", "parameter",
     "authentication", "authorization", "token", "key",
     "swagger", "openapi", "rest", "graphql", "soap"]
  | .manifest =>
    ["package", "dependency", "install", "requirements",
     "manifest", "config", "configuration", "setup",
     "environment", "version", "compatibility"]
  | .readme =>
    ["readme", "overview", "introduction", "getting started",
     "quick start", "setup", "installation", "usage",
     "example", "demo", "sample", "tutorial"]

/-- Capability regular-expression patterns of `QuestionPlanner.__init__`,
written in the two-shape pattern language (`altW` for `\b(..|..)\b`,
`seqW` for `\b(..)\b.*\b(..)\b`). -/
def plannerCapabilityPatterns : Capability → List CapPattern
  | .code_map =>
    [.altW ["code", "function", "class", "method"],
     .seqW ["how to", "how does", "implement", "write"] ["code", "function"],
     .altW ["repository", "repo", "github", "gitlab"],
     .altW ["programming", "development", "coding"]]
  | .routes =>
    [.altW ["route", "routing", "navigation", "url", "path"],
     .seqW ["how to", "where is", "navigate", "find"] ["page", "section"],
     .altW ["menu", "link", "structure", "hierarchy"]]
  | .nav_graph =>
    [.altW ["navigation", "menu", "sidebar", "header", "footer"],
     .seqW ["how to", "where is", "navigate"] ["menu", "navigation"],
     .altW ["interface", "ui", "layout", "design"]]
  | .transcript =>
    [.altW ["video", "transcript", "caption", "subtitle"],
     .seqW ["what does", "what is said", "what is mentioned"] ["video", "audio"],
     .altW ["youtube", "vimeo", "watch", "listen"]]
  | .section =>
    [.altW ["documentation", "guide", "tutorial", "help", "manual"],
     .altW ["how to", "what is", "explain", "describe"],
     .altW ["article", "blog", "post", "content", "information"]]
  | .api_spec =>
    [.altW ["api", "endpoint", "request", "response"],
     .seqW ["how to", "what is", "use", "call"] ["api", "endpoint"],
     .altW ["swagger", "openapi", "rest", "graphql"]]
  | .manifest =>
    [.altW ["package", "dependency", "install", "requirements"],
     .seqW ["how to", "what is", "setup", "configure"] ["package", "dependency"],
     .altW ["manifest", "config", "configuration"]]
  | .readme =>
    [.altW ["readme", "overview", "introduction", "getting started"],
     .seqW ["what is", "explain", "describe"] ["project", "library", "tool"],
     .altW ["setup", "installation", "usage", "example"]]

/-- Insertion order of the `capability_keywords` dictionary in
`QuestionPlanner.__init__`. -/
def capabilityOrder : List Capability :=
  [.code_map, .routes, .nav_graph, .transcript, .section, .api_spec, .manifest, .readme]

/-- Per-capability body of `QuestionPlanner._score_capabilities`:
`+0.3` per keyword-list entry present among the extracted keywords,
`+0.4` per matching pattern; when anything matched, clamp to 1, add the
`+0.1` multi-keyword and multi-pattern bonuses, and clamp again. -/
def scoreOneCapability (question : String) (keywords : List String)
    (cap : Capability) : ℚ :=
  let keywordMatches := ((plannerCapabilityKeywords cap).filter
    (fun kw => keywords.contains kw)).length
  let patternMatches := ((plannerCapabilityPatterns cap).filter
    (fun p => reSearch p question)).length
  let score := qAdd (qMul (qOfNat keywordMatches) (mkRat 3 10))
    (qMul (qOfNat patternMatches) (mkRat 4 10))
  if 0 < keywordMatches ∨ 0 < patternMatches then
    let score := min score 1
    let score := if 1 < keywordMatches then qAdd score (mkRat 1 10) else score
    let score := if 1 < patternMatches then qAdd score (mkRat 1 10) else score
    min score 1
  else score

/-- Embedding of `QuestionPlanner._score_capabilities`: a score for each
of the eight capabilities, in dictionary insertion order. -/
def score_capabilities (question : String) (keywords : List String) :
    List (Capability × ℚ) :=
  capabilityOrder.map (fun cap => (cap, scoreOneCapability question keywords cap))

/-- Embedding of `QuestionPlanner._get_fallback_capabilities`: the fixed
fallback capability-weight map keyed by question type (with the
`SECTION: 0.5` default for unknown types). -/
def get_fallback_capabilities (question_type : String) : List (Capability × ℚ) :=
  if question_type = "how_to" then [(.section, mkRat 6 10), (.readme, mkRat 4 10)]
  else if question_type = "what_is" then [(.section, mkRat 7 10), (.readme, mkRat 3 10)]
  else if question_type = "where_is" then [(.nav_graph, mkRat 5 10), (.routes, mkRat 5 10)]
  else if question_type = "why" then [(.section, mkRat 8 10)]
  else if question_type = "when" then [(.section, mkRat 6 10), (.manifest, mkRat 4 10)]
  else if question_type = "general" then [(.section, mkRat 5 10), (.readme, mkRat 3 10)]
  else [(.section, mkRat 5 10)]

/-- Type boosts of `QuestionPlanner._calculate_confidence`. -/
def questionTypeBoost (question_type : String) : ℚ :=
  if question_type = "how_to" then mkRat 1 10
  else if question_type = "what_is" then mkRat 1 10
  else if question_type = "where_is" then mkRat 5 100
  else if question_type = "why" then mkRat 5 100
  else if question_type = "when" then mkRat 5 100
  else 0

/-- Embedding of `QuestionPlanner._calculate_confidence`. -/
def calculate_confidence (capabilities : List (Capability × ℚ))
    (question_type : String) (keyword_count : Nat) : ℚ :=
  if capabilities.isEmpty then mkRat 1 10
  else
    let maxCapabilityScore := match capabilities.map (·.2) with
      | [] => 0
      | v :: vs => vs.foldl max v
    let typeBoost := questionTypeBoost question_type
    let keywordBoost := min (qMul (qOfNat keyword_count) (mkRat 2 100)) (mkRat 1 10)
    let capabilityBoost := min (qMul (qOfNat capabilities.length) (mkRat 5 100)) (mkRat 1 10)
    min (qAdd (qAdd (qAdd maxCapabilityScore typeBoost) keywordBoost) capabilityBoost) 1

/-- Embedding of `QuestionPlanner._get_capability_priority`: the
capabilities of the map sorted by score descending (Python's stable
`sorted(..., reverse=True)`). -/
def get_capability_priority (capabilities : List (Capability × ℚ)) : List Capability :=
  pySortDescQ
    (fun cap => match (capabilities.find? (fun cs => cs.1 = cap)).map (·.2) with
      | some v => v
      | none => 0)
    (capabilities.map (·.1))

/-- Everything `QuestionPlanner.plan_question` computes and passes to the
`PlanningResult(...)` constructor (including the four keyword arguments
the pydantic model does not declare and silently drops). -/
structure PlanOutput where
  question : String
  normalized_question : String
  required_capabilities : List Capability
  capability_scores : List (Capability × ℚ)
  capability_priority : List Capability
  keywords : List String
  question_type : String
  confidence : ℚ
  planning_method : String
deriving DecidableEq, Repr

/-- Embedding of `QuestionPlanner.plan_question`: normalize, extract
keywords, classify the question type, score the eight capabilities,
keep those scoring above 0.3 (falling back to the type-keyed map when
none does), and compute confidence and priority order.  The function is
total: the planner never fails. -/
def plan_question (question : String) : PlanOutput :=
  let normalized := normalize_question question
  let keywords := extract_keywords normalized
  let questionType := classify_question_type normalized
  let capabilityScores := score_capabilities normalized keywords
  let filtered := capabilityScores.filter (fun cs => mkRat 3 10 < cs.2)
  let required := if filtered.isEmpty then get_fallback_capabilities questionType else filtered
  let confidence := calculate_confidence required questionType keywords.length
  let priority := get_capability_priority required
  { question := question
    normalized_question := normalized
    required_capabilities := required.map (·.1)
    capability_scores := capabilityScores
    capability_priority := priority
    keywords := keywords
    question_type := questionType
    confidence := confidence
    planning_method := "keyword_analysis" }

/-! ## navigator.py — SmartNavigator

The navigator runs against an environment of oracles for everything
outside the repository: the network (fetch outcomes, robots.txt),
`BeautifulSoup` parsing, `urllib.parse`, the `rank_bm25`/TF-IDF numeric
scoring of a candidate batch, and `hashlib.md5`.  Everything written in
`navigator.py`/`util.py` itself — the visited-set discipline, the
queue-budget truncation, the admission threshold, the deny-list filter,
the duplicate-fingerprint filter and the statistics — is embedded
directly. -/

/-- Sum of a list of rationals through the executable addition. -/
def qSum (l : List ℚ) : ℚ := l.foldl qAdd 0

/-- Embedding of `navigator.LinkCandidate`. -/
structure LinkCandidate where
  url : String
  text : String
  title : String
  score : ℚ
  depth : Nat
  parent_url : String
deriving DecidableEq, Repr

/-- The components of `urllib.parse.urlparse` read by
`util.should_follow_link`. -/
structure UrlParts where
  scheme : String
  netloc : String
  path : String
deriving DecidableEq, Repr

/-- Exceptions relevant to `_fetch_page`: the two transport types named
by the tenacity `retry_if_exception_type((httpx.RequestError,
httpx.TimeoutException))` predicate, the `httpx.HTTPStatusError` raised
by `raise_for_status` on an HTTP error status, and anything else. -/
inductive PyExc where
  | connectError
  | timeoutExc
  | httpStatusError
  | otherExc
deriving DecidableEq, Repr

/-- The tenacity retry predicate of the `_fetch_page` decorator:
transport-level errors and timeouts are retryable, HTTP error statuses
are not. -/
def isTransportRetryable : PyExc → Bool
  | .connectError => true
  | .timeoutExc => true
  | .httpStatusError => false
  | .otherExc => false

/-- A link found by `BeautifulSoup` in a fetched page: `href`, the
`extract_link_text`/`extract_link_title` results and the text of the
parent element when one exists (all external parsing). -/
structure RawLink where
  href : String
  text : String
  title : String
  parentText : Option String
deriving DecidableEq, Repr

/-- Oracles for the navigator's external collaborators. -/
structure NavEnv where
  /-- `urllib.parse.urlparse`. -/
  urlparse : String → UrlParts
  /-- `util.normalize_url` (built on `urllib.parse.urljoin`/`parse_qs`). -/
  normalize_url : String → String → String
  /-- Outcome of `_check_robots_txt` for a URL (network robots.txt;
  fail-open, so a fetch failure shows up as `true`). -/
  robotsAllowed : String → Bool
  /-- The `<a href>` elements `BeautifulSoup` finds in a page, with their
  extracted text/title/parent text, given content and base URL. -/
  rawLinks : String → String → List RawLink
  /-- `util.extract_url_keywords` (built on `urllib.parse`). -/
  urlKeywords : String → List String
  /-- The numeric scores `_update_link_scores` obtains for a candidate
  batch (from `rank_bm25.BM25Okapi` or the TF-IDF fallback). -/
  scoreBatch : List LinkCandidate → List ℚ
  /-- Outcome of `client.get(url)` followed by `raise_for_status()`:
  content, content type and byte length, or a raised exception. -/
  fetchOutcome : String → Except PyExc (String × String × Nat)
  /-- The 128-bit `hashlib.md5` word hash used by `calculate_simhash`. -/
  md5Int : String → Nat
  /-- Whether `stats.get_elapsed_time() > config.global_timeout` before
  iteration `n` of the crawl loop (wall-clock time). -/
  timedOut : Nat → Bool

/-- File-extension deny list of `util.should_follow_link` (the
`$`-anchored alternation regexes). -/
def skipSuffixes : List String :=
  [".pdf", ".doc", ".docx", ".xls", ".xlsx", ".ppt", ".pptx", ".zip", ".rar", ".tar", ".gz",
   ".jpg", ".jpeg", ".png", ".gif", ".bmp", ".svg", ".webp",
   ".mp4", ".avi", ".mov", ".wmv", ".flv", ".webm",
   ".mp3", ".wav", ".ogg", ".aac"]

/-- Substring deny list of `util.should_follow_link`. -/
def skipSubstrings : List String :=
  ["/download/", "/attachment/", "/file/", "/media/", "/static/", "/assets/",
   "javascript:", "mailto:", "tel:"]

/-- Embedding of `util.should_follow_link`: same scheme and host as the
seed, path depth within `max_depth` extra segments, and no deny-list
match (`re.search(..., re.IGNORECASE)` on the URL is a case-insensitive
suffix or substring test because every pattern is a literal, `$`-anchored
for the extension lists). -/
def should_follow_link (urlparse : String → UrlParts) (url base_url : String)
    (max_depth : Nat) : Bool :=
  let bp := urlparse base_url
  let lp := urlparse url
  if lp.scheme ≠ bp.scheme || lp.netloc ≠ bp.netloc then false
  else
    let baseDepth := (runsOf (fun c => c ≠ '/') bp.path.data).length
    let linkDepth := (runsOf (fun c => c ≠ '/') lp.path.data).length
    if baseDepth + max_depth < linkDepth then false
    else
      let urlLower := pyLower url
      if skipSuffixes.any (fun s => pyEndsWith urlLower s) then false
      else if skipSubstrings.any (fun s => pyContains urlLower s) then false
      else true

/-- Embedding of `SmartNavigator._extract_links`: for every anchor the
parser finds, skip empty and fragment-only hrefs, normalize, skip URLs
already visited or disallowed by robots.txt, apply
`should_follow_link` (against `settings.max_depth`), assemble the
candidate text (link text + title, then the parent's text, then URL
keywords as fallbacks) and emit a zero-scored candidate. -/
def extract_links (env : NavEnv) (visited : List String) (settingsMaxDepth : Nat)
    (content base_url : String) (depth : Nat) : List LinkCandidate :=
  (env.rawLinks content base_url).filterMap (fun link =>
    if link.href.data = [] || pyStartsWith link.href "#" then none
    else
      let fullUrl := env.normalize_url link.href base_url
      if visited.contains fullUrl || !env.robotsAllowed fullUrl then none
      else if !should_follow_link env.urlparse fullUrl base_url settingsMaxDepth then none
      else
        let combined0 := pyStrip (link.text ++ " " ++ link.title)
        let combined1 :=
          if combined0.data = [] then
            match link.parentText with
            | some t => t
            | none => combined0
          else combined0
        let combinedText :=
          if combined1.data = [] then joinSpace (env.urlKeywords fullUrl) else combined1
        some { url := fullUrl
               text := combinedText
               title := link.title
               score := 0
               depth := depth
               parent_url := base_url })

/-- Pointwise score assignment of `_update_link_scores`: candidate `i`
gets `scores[i]`, or `0.0` past the end of the score list. -/
def assignScores : List LinkCandidate → List ℚ → List LinkCandidate
  | [], _ => []
  | c :: cs, [] => { c with score := 0 } :: assignScores cs []
  | c :: cs, s :: ss => { c with score := s } :: assignScores cs ss

/-- Embedding of `SmartNavigator._update_link_scores`: no-op on an empty
batch or empty keyword list, otherwise assign the batch scores produced
by the scorer (external numeric scoring). -/
def update_link_scores (env : NavEnv) (candidates : List LinkCandidate)
    (question_keywords : List String) : List LinkCandidate :=
  if candidates.isEmpty || question_keywords.isEmpty then candidates
  else assignScores candidates (env.scoreBatch candidates)

/-- Embedding of `SmartNavigator._filter_duplicate_content`, threading
the session's `simhash_cache`: a candidate whose combined text
fingerprint is within Hamming distance 3 of any cached fingerprint is
dropped; survivors enter the cache keyed by URL. -/
def filter_duplicate_content (md5Int : String → Nat) :
    List LinkCandidate → List (String × Nat) → List LinkCandidate × List (String × Nat)
  | [], cache => ([], cache)
  | c :: cs, cache =>
    let candidateHash := calculate_simhash md5Int (c.text ++ " " ++ c.title)
    if cache.any (fun e => calculate_similarity_threshold candidateHash e.2 3) then
      filter_duplicate_content md5Int cs cache
    else
      let rec2 := filter_duplicate_content md5Int cs (dictSet cache c.url candidateHash)
      (c :: rec2.1, rec2.2)

/-- Navigation statistics and session state owned by one navigator
(`visited_urls`, the priority queue, `simhash_cache` and
`NavigationStats`), plus the trace `fetched` of candidates whose pages
were successfully fetched and yielded, in order. -/
structure NavState where
  visited : List String
  queue : List LinkCandidate
  fetched : List LinkCandidate
  simhashCache : List (String × Nat)
  urls_visited : Nat
  urls_queued : Nat
  bytes_fetched : Nat
  errors : Nat
  depth_reached : Nat
  avg_score : ℚ
deriving DecidableEq, Repr

/-- Select the highest-scoring candidate (first among equals) and return
it with the remaining queue — the observable behaviour of
`heapq.heappop` under `LinkCandidate.__lt__`, which orders by score
descending (heapq breaks ties by heap layout; the claims proved below
do not depend on tie order). -/
def popMaxAux (c : LinkCandidate) : List LinkCandidate → LinkCandidate × List LinkCandidate
  | [] => (c, [])
  | d :: ds =>
    if c.score < d.score then
      let r := popMaxAux d ds
      (r.1, c :: r.2)
    else
      let r := popMaxAux c ds
      (r.1, d :: r.2)

/-- Pop from the priority queue (`heapq.heappop`); `none` on an empty
queue (`IndexError` in the source, caught and breaking the loop). -/
def popMax : List LinkCandidate → Option (LinkCandidate × List LinkCandidate)
  | [] => none
  | c :: cs => some (popMaxAux c cs)

/-- The enqueue loop of `SmartNavigator._add_to_queue` over the
already-sorted candidates: stop as soon as the queue holds
`page_budget` candidates; push a candidate (and count it in
`urls_queued`) only when its score is at least 0.1. -/
def addToQueueAux (page_budget : Nat) : List LinkCandidate → NavState → NavState
  | [], st => st
  | c :: cs, st =>
    if page_budget ≤ st.queue.length then st
    else if mkRat 1 10 ≤ c.score then
      addToQueueAux page_budget cs
        { st with queue := st.queue ++ [c], urls_queued := st.urls_queued + 1 }
    else addToQueueAux page_budget cs st

/-- Embedding of `SmartNavigator._add_to_queue`: sort the batch by score
descending, then run the budget-limited enqueue loop. -/
def add_to_queue (config : CrawlConfig) (st : NavState)
    (candidates : List LinkCandidate) : NavState :=
  addToQueueAux config.page_budget (pySortDescQ (fun c => c.score) candidates) st

/-- The body of `_fetch_page` (its `try`/`except`): on a normal response
update `bytes_fetched`/`urls_visited` and return the page; on any
raised exception log, count an error and return `None`.  The body
catches `Exception`, so it never re-raises. -/
def fetch_page_inner (st : NavState) (outcome : Except PyExc (String × String × Nat)) :
    NavState × Option (String × String × Nat) :=
  match outcome with
  | .ok (content, contentType, contentLength) =>
    ({ st with bytes_fetched := st.bytes_fetched + contentLength,
               urls_visited := st.urls_visited + 1 },
     some (content, contentType, contentLength))
  | .error _ => ({ st with errors := st.errors + 1 }, none)

/-- The tenacity retry combinator `stop_after_attempt(maxAttempts)` with
a retryable-exception predicate: call the wrapped function; re-call it
while it raises a retryable exception and attempts remain (the
exponential backoff `wait_exponential(multiplier=1, min=1, max=10)`
only spaces attempts in time and is not modelled).  Returns the number
of attempts made and the final outcome. -/
def retryCallAux {α : Type} (retryable : PyExc → Bool) (call : Nat → Except PyExc α) :
    Nat → Nat → Nat × Except PyExc α
  | 0, made => (made, .error .otherExc)
  | fuel + 1, made =>
    match call made with
    | .ok v => (made + 1, .ok v)
    | .error e =>
      if retryable e && 0 < fuel then retryCallAux retryable call fuel (made + 1)
      else (made + 1, .error e)

/-- Tenacity `@retry(stop=stop_after_attempt(maxAttempts), ...)`. -/
def tenacity_retry {α : Type} (maxAttempts : Nat) (retryable : PyExc → Bool)
    (call : Nat → Except PyExc α) : Nat × Except PyExc α :=
  retryCallAux retryable call maxAttempts 0

/-- Embedding of the decorated `SmartNavigator._fetch_page`: the
tenacity wrapper (3 attempts, transport errors retryable) around a body
that catches every exception and returns normally.  `outcome k` is what
the HTTP client does on attempt `k`. -/
def fetch_page (outcome : Nat → Except PyExc (String × String × Nat)) (st : NavState) :
    Nat × Except PyExc (NavState × Option (String × String × Nat)) :=
  tenacity_retry 3 isTransportRetryable (fun k => Except.ok (fetch_page_inner st (outcome k)))

/-- The link-expansion stanza of the `navigate` loop body: when the
candidate's depth is below `settings.max_depth`, extract links from the
fetched page (against the current visited set), score them, filter
near-duplicate fingerprints through the session cache, and merge the
survivors into the queue within the page budget. -/
def processNewLinks (env : NavEnv) (config : CrawlConfig) (settingsMaxDepth : Nat)
    (question_keywords : List String) (candidate : LinkCandidate) (content : String)
    (st : NavState) : NavState :=
  if candidate.depth < settingsMaxDepth then
    let newCandidates :=
      extract_links env st.visited settingsMaxDepth content candidate.url (candidate.depth + 1)
    if newCandidates.isEmpty then st
    else
      let scored := update_link_scores env newCandidates question_keywords
      let filtered := filter_duplicate_content env.md5Int scored st.simhashCache
      add_to_queue config { st with simhashCache := filtered.2 } filtered.1
  else st

/-- The average-score stanza at the end of the `navigate` loop body. -/
def updateAvgScore (st : NavState) : NavState :=
  if st.queue.isEmpty then st
  else { st with avg_score := qDivN (qSum (st.queue.map (·.score))) st.queue.length }

/-- One full iteration of the `navigate` loop after the loop-condition
checks: pop the best candidate; skip it when already visited; otherwise
mark it visited, fetch (one attempt — the body of `_fetch_page` never
lets an exception reach the retry decorator), and on success record the
yield, then extract/score/filter/enqueue new links when depth remains
(`settings.max_depth`), and update the average queue score. -/
def navStep (env : NavEnv) (config : CrawlConfig) (settingsMaxDepth : Nat)
    (question_keywords : List String) (st : NavState) : NavState :=
  match popMax st.queue with
  | none => st
  | some (candidate, rest) =>
    if st.visited.contains candidate.url then { st with queue := rest }
    else
      let st1 := { st with visited := candidate.url :: st.visited, queue := rest }
      match fetch_page_inner st1 (env.fetchOutcome candidate.url) with
      | (st2, none) => st2
      | (st2, some (content, _, _)) =>
        updateAvgScore
          (processNewLinks env config settingsMaxDepth question_keywords candidate content
            { st2 with depth_reached := max st2.depth_reached candidate.depth,
                       fetched := st2.fetched ++ [candidate] })

/-- The `while` loop of `SmartNavigator.navigate`, fuel-indexed: stop
when the queue is empty, the page budget is reached, or the deadline
has passed (checked before each iteration, exactly as in the source);
otherwise run one iteration.  `navigateLoop fuel` therefore computes
the session state after at most `fuel` iterations, so ranging over
`fuel` ranges over every state the session passes through. -/
def navigateLoop (env : NavEnv) (config : CrawlConfig) (settingsMaxDepth : Nat)
    (question_keywords : List String) : Nat → Nat → NavState → NavState
  | 0, _, st => st
  | fuel + 1, stepIdx, st =>
    if st.queue.isEmpty then st
    else if config.page_budget ≤ st.urls_visited then st
    else if env.timedOut stepIdx then st
    else
      navigateLoop env config settingsMaxDepth question_keywords fuel (stepIdx + 1)
        (navStep env config settingsMaxDepth question_keywords st)

/-- The seed candidate pushed by `navigate` (score 1.0, depth 0). -/
def startCandidate (start_url : String) : LinkCandidate :=
  { url := start_url, text := "", title := "", score := 1, depth := 0, parent_url := "" }

/-- Session state right after `navigate` pushes the seed candidate and
counts it in `urls_queued`. -/
def initialNavState (start_url : String) : NavState :=
  { visited := []
    queue := [startCandidate start_url]
    fetched := []
    simhashCache := []
    urls_visited := 0
    urls_queued := 1
    bytes_fetched := 0
    errors := 0
    depth_reached := 0
    avg_score := 0 }

/-- Embedding of `SmartNavigator.navigate`: initialize with the seed and
run the loop (for at most `fuel` iterations). -/
def navigate (env : NavEnv) (config : CrawlConfig) (settingsMaxDepth : Nat)
    (question_keywords : List String) (start_url : String) (fuel : Nat) : NavState :=
  navigateLoop env config settingsMaxDepth question_keywords fuel 0
    (initialNavState start_url)

/-! ## Claims about the character budget (C1) -/

theorem pyLen_append (s t : String) : pyLen (s ++ t) = pyLen s + pyLen t := by
  simp [pyLen, String.data_append]

/-- Modelled from the amended specification sentence: walk the list with
the remaining budget, including a block wholly while it fits; when a
block would overflow and the remaining budget strictly exceeds 200
characters, include a truncated copy — content sliced to fit the
remaining budget and suffixed with an ellipsis, `metadata.truncated`
set, the original length preserved in metadata — and stop; otherwise
stop without including the overflowing block. -/
def charBudgetSpec : Nat → List ContentBlock → List ContentBlock
  | _, [] => []
  | remaining, b :: rest =>
    if pyLen b.content ≤ remaining then
      b :: charBudgetSpec (remaining - pyLen b.content) rest
    else if 200 < remaining then
      [{ content_type := b.content_type
         content := pySlice b.content (remaining - 3) ++ "..."
         url := b.url
         title := b.title
         char_count := pyLen (pySlice b.content (remaining - 3) ++ "...")
         metadata := dictSet (dictSet b.metadata "truncated" (.b true))
           "original_length" (.n (pyLen b.content)) }]
    else []

theorem charBudgetSpec_sum_le (remaining : Nat) (blocks : List ContentBlock) :
    ((charBudgetSpec remaining blocks).map (fun b => pyLen b.content)).sum ≤ remaining := by
  induction blocks generalizing remaining with
  | nil => simp [charBudgetSpec]
  | cons b rest ih =>
    by_cases hfit : pyLen b.content ≤ remaining
    · have := ih (remaining - pyLen b.content)
      simp only [charBudgetSpec, if_pos hfit, List.map_cons, List.sum_cons]
      omega
    · simp only [charBudgetSpec, if_neg hfit]
      by_cases hrem : 200 < remaining
      · simp only [if_pos hrem, List.map_cons, List.map_nil, List.sum_cons, List.sum_nil]
        have hlen : pyLen (pySlice b.content (remaining - 3) ++ "...") ≤ remaining := by
          rw [pyLen_append]
          have : pyLen (pySlice b.content (remaining - 3)) ≤ remaining - 3 := by
            simp [pySlice, pyLen]
          have h3 : pyLen "..." = 3 := by decide
          omega
        omega
      · simp [if_neg hrem]

theorem applyBudgetAux_eq_spec (budget total : Nat) (blocks : List ContentBlock)
    (h : total ≤ budget) :
    applyBudgetAux budget total blocks = charBudgetSpec (budget - total) blocks := by
  induction blocks generalizing total with
  | nil => simp [applyBudgetAux, charBudgetSpec]
  | cons b rest ih =>
    by_cases hfit : total + pyLen b.content ≤ budget
    · have hfit2 : pyLen b.content ≤ budget - total := by omega
      rw [applyBudgetAux, charBudgetSpec]
      simp only [if_pos hfit, if_pos hfit2]
      have harith : budget - total - pyLen b.content = budget - (total + pyLen b.content) := by
        omega
      rw [harith, ih (total + pyLen b.content) hfit]
    · have hfit2 : ¬ pyLen b.content ≤ budget - total := by omega
      rw [applyBudgetAux, charBudgetSpec]
      simp only [if_neg hfit, if_neg hfit2]
      by_cases hrem : 200 < budget - total
      · simp only [if_pos hrem]
        rfl
      · simp [if_neg hrem]

/-- C1 (amended): for every configured character budget and every block
list, the blocks returned by `_apply_character_budget` total at most
`char_budget` characters, and the function computes exactly the
spec-side walk `charBudgetSpec`: blocks are included whole while the
cumulative size fits; at the first overflowing block, when strictly
more than 200 budget characters remain, a truncated copy (content
sliced to fit the remaining budget, suffixed with an ellipsis,
`metadata.truncated = true`, original length preserved in metadata) is
included and the walk stops, and otherwise the walk stops without
including the overflowing block. -/
theorem apply_character_budget_correct (char_budget : Nat) (blocks : List ContentBlock) :
    ((apply_character_budget char_budget blocks).map (fun b => pyLen b.content)).sum ≤ char_budget
    ∧ apply_character_budget char_budget blocks = charBudgetSpec char_budget blocks := by
  have heq : apply_character_budget char_budget blocks = charBudgetSpec char_budget blocks := by
    have := applyBudgetAux_eq_spec char_budget 0 blocks (Nat.zero_le _)
    simpa [apply_character_budget] using this
  refine ⟨?_, heq⟩
  rw [heq]
  exact charBudgetSpec_sum_le char_budget blocks

/-- An 800-character block (fills the budget down to exactly 200). -/
def budgetBlockA : ContentBlock :=
  { content_type := .section, content := String.mk (List.replicate 800 'a')
    url := "http://example.com/a", char_count := 800 }

/-- A 300-character block that overflows the 200 remaining characters. -/
def budgetBlockB : ContentBlock :=
  { content_type := .section, content := String.mk (List.replicate 300 'b')
    url := "http://example.com/b", char_count := 300 }

set_option maxRecDepth 10000 in
/-- C1 counterexample: with `char_budget = 1000` and blocks of 800 and
300 characters, the second block would overflow while exactly 200
budget characters remain (so "≥ 200 characters remain" holds), yet
`_apply_character_budget` returns only the first block — no truncated
copy is included, because the source requires strictly more than 200
remaining characters (`remaining_budget > 200`). -/
theorem apply_character_budget_at_exactly_200_no_truncation :
    apply_character_budget 1000 [budgetBlockA, budgetBlockB] = [budgetBlockA]
    ∧ 1000 - pyLen budgetBlockA.content = 200
    ∧ 1000 < pyLen budgetBlockA.content + pyLen budgetBlockB.content := by
  decide

/-! ## Claims about deduplication (C5) -/

theorem dedupStep_pairwise (md5Int : String → Nat) (acc : List ContentBlock × List Nat)
    (block : ContentBlock)
    (hacc : acc.1.Pairwise
      (fun a b => calculate_content_similarity b.content a.content ≤ mkRat 8 10)) :
    (dedupStep md5Int acc block).1.Pairwise
      (fun a b => calculate_content_similarity b.content a.content ≤ mkRat 8 10) := by
  unfold dedupStep
  dsimp only
  split
  · exact hacc
  split
  · exact hacc
  next hdup =>
    rw [List.pairwise_append]
    refine ⟨hacc, List.pairwise_singleton _ _, ?_⟩
    intro a ha x hx
    rw [List.mem_singleton] at hx
    subst hx
    rw [Bool.not_eq_true, List.any_eq_false] at hdup
    have := hdup a ha
    simp only [decide_eq_true_eq] at this
    exact le_of_not_lt this

theorem dedup_foldl_pairwise (md5Int : String → Nat) (blocks : List ContentBlock)
    (acc : List ContentBlock × List Nat)
    (hacc : acc.1.Pairwise
      (fun a b => calculate_content_similarity b.content a.content ≤ mkRat 8 10)) :
    (blocks.foldl (dedupStep md5Int) acc).1.Pairwise
      (fun a b => calculate_content_similarity b.content a.content ≤ mkRat 8 10) := by
  induction blocks generalizing acc with
  | nil => exact hacc
  | cons b bs ih => exact ih _ (dedupStep_pairwise md5Int acc b hacc)

/-- C5: `_deduplicate_blocks` (a) never keeps two blocks whose
token-Jaccard similarity exceeds 0.8 — every pair of output blocks, in
order, satisfies `similarity ≤ 0.8` in the orientation the code checks
(later against earlier); and (b) on a two-block input with similarity
at most 0.8 and distinct simhash fingerprints, both blocks survive. -/
theorem deduplicate_blocks_correct :
    (∀ (md5Int : String → Nat) (blocks : List ContentBlock),
      (deduplicate_blocks md5Int blocks).Pairwise
        (fun a b => calculate_content_similarity b.content a.content ≤ mkRat 8 10))
    ∧ (∀ (md5Int : String → Nat) (b1 b2 : ContentBlock),
      calculate_content_similarity b2.content b1.content ≤ mkRat 8 10 →
      calculate_simhash md5Int b1.content ≠ calculate_simhash md5Int b2.content →
      deduplicate_blocks md5Int [b1, b2] = [b1, b2]) := by
  constructor
  · intro md5Int blocks
    unfold deduplicate_blocks
    by_cases hlen : blocks.length ≤ 1
    · rw [if_pos hlen]
      match blocks, hlen with
      | [], _ => exact List.Pairwise.nil
      | [b], _ => exact List.pairwise_singleton _ _
    · rw [if_neg hlen]
      exact dedup_foldl_pairwise md5Int blocks ([], []) List.Pairwise.nil
  · intro md5Int b1 b2 hsim hhash
    unfold deduplicate_blocks
    rw [if_neg (by simp)]
    simp only [List.foldl]
    unfold dedupStep
    simp only [List.contains_nil, Bool.false_eq_true, if_false, List.any_nil,
      List.nil_append]
    rw [List.contains_cons]
    simp only [List.contains_nil, Bool.or_false, beq_iff_eq]
    rw [if_neg (by simpa [eq_comm] using hhash)]
    simp only [List.any_cons, List.any_nil, Bool.or_false]
    rw [if_neg (by simpa using not_lt.mpr hsim)]
    rfl

/-- ASCII texts with disjoint token sets (used as the two-block dedup
witness input). -/
def dedupBlockA : ContentBlock :=
  { content_type := .section, content := "alpha beta", url := "http://example.com/1",
    char_count := 10 }

/-- Second dedup witness block, sharing no token with the first. -/
def dedupBlockB : ContentBlock :=
  { content_type := .section, content := "gamma delta", url := "http://example.com/2",
    char_count := 11 }

/-- A concrete 128-bit word hash distinguishing the two witness blocks
(stands in for `hashlib.md5`). -/
def dedupHash (w : String) : Nat := if w = "alpha" ∨ w = "beta" then 1 <<< 127 else 0

/-- Witness for C5: the two concrete blocks have similarity 0 ≤ 0.8 and
distinct fingerprints, and both survive deduplication. -/
theorem deduplicate_blocks_correct_witness :
    deduplicate_blocks dedupHash [dedupBlockA, dedupBlockB] = [dedupBlockA, dedupBlockB] :=
  deduplicate_blocks_correct.2 dedupHash dedupBlockA dedupBlockB (by decide) (by decide)

/-! ## Claims about assembly failure handling (C6) -/

/-- C6: when any internal exception `e` is raised during assembly, the
`try`/`except` of `assemble_content` returns an `AssemblyResult` with
no selected blocks, an empty (zero) coverage map, `char_count = 0` and
the error recorded in its stats — and, the function being total, the
exception never reaches the caller. -/
theorem assemble_content_error_result (e : String) :
    (assemble_content_catch (.error e)).selected_blocks = []
    ∧ (assemble_content_catch (.error e)).capability_coverage = []
    ∧ (assemble_content_catch (.error e)).char_count = 0
    ∧ (assemble_content_catch (.error e)).assembly_stats = [("error", .s e)]
    ∧ (assemble_content_catch (.error e)).duplicates_removed = 0 :=
  ⟨rfl, rfl, rfl, rfl, rfl⟩

/-! ## Claims about the PlanningResult schema (C9) -/

/-- C9 (code bug): the pydantic model `schemas.PlanningResult` does not
declare the fields `question` and `normalized_question` (nor
`capability_priority`/`planning_method`), although `plan_question`
passes them as keyword arguments and the repository's own test
(`tests/test_planner.py`) reads `result.question` and
`result.normalized_question`; with pydantic's default
`extra="ignore"`, construction silently drops them, so the attributes
present on the returned object are only the five declared fields. -/
theorem planning_result_drops_question_fields :
    planQuestionKwargs.contains "question"
    ∧ planQuestionKwargs.contains "normalized_question"
    ∧ testPlannerAccessedFields.contains "question"
    ∧ testPlannerAccessedFields.contains "normalized_question"
    ∧ planningResultFields.contains "question" = false
    ∧ planningResultFields.contains "normalized_question" = false
    ∧ pydanticAcceptedFields planningResultFields planQuestionKwargs =
        ["required_capabilities", "capability_scores", "keywords", "question_type",
         "confidence"] := by
  decide

/-! ## Claims about fetch retry behaviour (C4) -/

/-- C4 (code bug): the tenacity policy on `_fetch_page` alone would make
3 attempts on a persistent transport error (first conjunct), but the
body of `_fetch_page` catches every exception and returns `None`, so
the decorated function makes exactly one attempt, counts one error and
returns `None` for a transport error — no retry ever happens (middle
conjuncts).  An HTTP error status likewise causes a single attempt, one
counted error and a `None` return (no retry, candidate dropped, nothing
raised), as the last conjuncts record. -/
theorem fetch_page_never_retries :
    (tenacity_retry 3 isTransportRetryable
      (fun _ => (Except.error PyExc.connectError : Except PyExc Nat))).1 = 3
    ∧ (fetch_page (fun _ => .error .connectError) (initialNavState "http://example.com/")).1 = 1
    ∧ (fetch_page (fun _ => .error .connectError) (initialNavState "http://example.com/")).2 =
        .ok ({ initialNavState "http://example.com/" with errors := 1 }, none)
    ∧ (fetch_page (fun _ => .error .timeoutExc) (initialNavState "http://example.com/")).1 = 1
    ∧ (fetch_page (fun _ => .error .httpStatusError) (initialNavState "http://example.com/")).1 = 1
    ∧ (fetch_page (fun _ => .error .httpStatusError) (initialNavState "http://example.com/")).2 =
        .ok ({ initialNavState "http://example.com/" with errors := 1 }, none) :=
  ⟨rfl, rfl, rfl, rfl, rfl, rfl⟩

/-! ## Claims about capability-coverage repair (C3) -/

/-- A block whose content scores capability-relevance 1.0 for
`API_SPEC` but whose content type is `SECTION`. -/
def coverageBlock : ContentBlock :=
  { content_type := .section, content := "api endpoint request response",
    url := "http://example.com/x", char_count := 29 }

/-- A planning result requiring only `API_SPEC`. -/
def coveragePlan : PlanningResult :=
  { required_capabilities := [.api_spec]
    capability_scores := [(.api_spec, mkRat 1 2)]
    keywords := ["api"]
    question_type := "what_is"
    confidence := mkRat 1 2 }

/-- C3 (code bug): on an input whose only block scores heuristic
capability-relevance 1.0 > 0.3 for the required capability `API_SPEC`,
the coverage-repair step does append a block (the final selection has
two copies), yet the final `AssemblyResult` still reports `API_SPEC`
as uncovered, because `_calculate_coverage` derives coverage from
content types alone and the appended block's content type remains
`SECTION`.  The claim (and the spec's coverage-priority property)
require the capability to be reported as covered. -/
theorem capability_coverage_report_false_despite_heuristic_match :
    mkRat 3 10 < estimate_capability_relevance coverageBlock .api_spec
    ∧ (assemble_content (fun _ => 0) 10000 [coverageBlock] coveragePlan).selected_blocks.length = 2
    ∧ (assemble_content (fun _ => 0) 10000 [coverageBlock] coveragePlan).capability_coverage =
        [(.api_spec, false)] := by
  decide

/-! ## Claims about planner totality and fallback (C7) -/

theorem get_fallback_capabilities_ne_nil (question_type : String) :
    get_fallback_capabilities question_type ≠ [] := by
  unfold get_fallback_capabilities
  repeat' split
  all_goals simp

theorem required_map_ne_nil {α β : Type} (filtered fallback : List α) (f : α → β)
    (hfb : fallback ≠ []) :
    ((if filtered.isEmpty then fallback else filtered).map f) ≠ [] := by
  split
  · simpa using hfb
  · next h =>
    rw [List.isEmpty_iff] at h
    simpa using h

/-- C7: `plan_question` is total and always returns at least one
required capability: for every question, when no capability scores
above 0.3 the fixed fallback map for the question type is substituted
(and every fallback map is non-empty); in particular
`plan_question("")` falls back to `general`, returning the two
capabilities `SECTION` and `README` and confidence `0.6 ∈ (0, 1]`. -/
theorem plan_question_always_returns_capability :
    (∀ q : String, (plan_question q).required_capabilities ≠ [])
    ∧ (∀ q : String,
        ((score_capabilities (normalize_question q)
            (extract_keywords (normalize_question q))).filter
          (fun cs => mkRat 3 10 < cs.2)) = [] →
        (plan_question q).required_capabilities =
          (get_fallback_capabilities (classify_question_type (normalize_question q))).map (·.1))
    ∧ (plan_question "").required_capabilities = [.section, .readme]
    ∧ 0 < (plan_question "").confidence
    ∧ (plan_question "").confidence ≤ 1 := by
  refine ⟨?_, ?_, by decide, by decide, by decide⟩
  · intro q
    unfold plan_question
    dsimp only
    exact required_map_ne_nil _ _ _ (get_fallback_capabilities_ne_nil _)
  · intro q h
    unfold plan_question
    dsimp only
    rw [h]
    rfl

/-- Witness for C7: at the concrete input `""` no capability scores
above 0.3, and the planner's required capabilities are exactly the
fallback map for its question type. -/
theorem plan_question_always_returns_capability_witness :
    ((score_capabilities (normalize_question "")
        (extract_keywords (normalize_question ""))).filter
      (fun cs => mkRat 3 10 < cs.2)) = []
    ∧ (plan_question "").required_capabilities =
        (get_fallback_capabilities (classify_question_type (normalize_question ""))).map (·.1) :=
  ⟨by decide, plan_question_always_returns_capability.2.1 "" (by decide)⟩

/-! ## Navigator invariants: queue and visited-set lemmas (C2, C8, C10) -/

theorem popMaxAux_length (c : LinkCandidate) (cs : List LinkCandidate) :
    (popMaxAux c cs).2.length = cs.length := by
  induction cs generalizing c with
  | nil => rfl
  | cons d ds ih =>
    unfold popMaxAux
    dsimp only
    split
    · simp [ih]
    · simp [ih]

theorem popMaxAux_fst_mem (c : LinkCandidate) (cs : List LinkCandidate) :
    (popMaxAux c cs).1 = c ∨ (popMaxAux c cs).1 ∈ cs := by
  induction cs generalizing c with
  | nil => left; rfl
  | cons d ds ih =>
    unfold popMaxAux
    dsimp only
    split
    · rcases ih d with h | h
      · right; rw [h]; exact List.mem_cons_self d ds
      · right; exact List.mem_cons_of_mem d h
    · rcases ih c with h | h
      · left; exact h
      · right; exact List.mem_cons_of_mem d h

theorem popMaxAux_snd_mem (c : LinkCandidate) (cs : List LinkCandidate)
    (x : LinkCandidate) (hx : x ∈ (popMaxAux c cs).2) : x = c ∨ x ∈ cs := by
  induction cs generalizing c with
  | nil => simp [popMaxAux] at hx
  | cons d ds ih =>
    unfold popMaxAux at hx
    dsimp only at hx
    split at hx
    · rw [List.mem_cons] at hx
      rcases hx with hx | hx
      · left; exact hx
      · rcases ih d hx with h | h
        · right; rw [h]; exact List.mem_cons_self d ds
        · right; exact List.mem_cons_of_mem d h
    · rw [List.mem_cons] at hx
      rcases hx with hx | hx
      · right; rw [hx]; exact List.mem_cons_self d ds
      · rcases ih c hx with h | h
        · left; exact h
        · right; exact List.mem_cons_of_mem d h

theorem popMax_spec (q : List LinkCandidate) (cand : LinkCandidate)
    (rest : List LinkCandidate) (h : popMax q = some (cand, rest)) :
    cand ∈ q ∧ (∀ x ∈ rest, x ∈ q) ∧ rest.length + 1 = q.length := by
  match q, h with
  | c :: cs, h =>
    unfold popMax at h
    have hpair : popMaxAux c cs = (cand, rest) := by
      simpa using h
    refine ⟨?_, ?_, ?_⟩
    · have := popMaxAux_fst_mem c cs
      rw [hpair] at this
      rcases this with h1 | h1
      · have h1c : cand = c := h1
        rw [h1c]; exact List.mem_cons_self c cs
      · exact List.mem_cons_of_mem c h1
    · intro x hx
      have := popMaxAux_snd_mem c cs x (by rw [hpair]; exact hx)
      rcases this with h1 | h1
      · rw [h1]; exact List.mem_cons_self c cs
      · exact List.mem_cons_of_mem c h1
    · have := popMaxAux_length c cs
      rw [hpair] at this
      simp [this]

theorem addToQueueAux_length_le (B : Nat) (cands : List LinkCandidate) :
    ∀ st : NavState, st.queue.length ≤ B → (addToQueueAux B cands st).queue.length ≤ B := by
  induction cands with
  | nil => intro st h; exact h
  | cons c cs ih =>
    intro st h
    unfold addToQueueAux
    split
    · exact h
    · next hfull =>
      split
      · apply ih
        simp only [List.length_append, List.length_cons, List.length_nil]
        omega
      · exact ih st h

theorem addToQueueAux_mem (B : Nat) (cands : List LinkCandidate) :
    ∀ (st : NavState) (x : LinkCandidate), x ∈ (addToQueueAux B cands st).queue →
      x ∈ st.queue ∨ mkRat 1 10 ≤ x.score := by
  induction cands with
  | nil => intro st x hx; left; exact hx
  | cons c cs ih =>
    intro st x hx
    unfold addToQueueAux at hx
    split at hx
    · left; exact hx
    · split at hx
      · next hscore =>
        rcases ih _ x hx with h | h
        · rw [List.mem_append] at h
          rcases h with h | h
          · left; exact h
          · right
            rw [List.mem_singleton] at h
            rw [h]
            exact hscore
        · right; exact h
      · exact ih st x hx

theorem addToQueueAux_other_fields (B : Nat) (cands : List LinkCandidate) :
    ∀ st : NavState,
      (addToQueueAux B cands st).visited = st.visited
      ∧ (addToQueueAux B cands st).fetched = st.fetched := by
  induction cands with
  | nil => intro st; exact ⟨rfl, rfl⟩
  | cons c cs ih =>
    intro st
    unfold addToQueueAux
    split
    · exact ⟨rfl, rfl⟩
    · split
      · exact ih _
      · exact ih st

theorem fetch_page_inner_other_fields (st : NavState)
    (outcome : Except PyExc (String × String × Nat)) :
    (fetch_page_inner st outcome).1.queue = st.queue
    ∧ (fetch_page_inner st outcome).1.visited = st.visited
    ∧ (fetch_page_inner st outcome).1.fetched = st.fetched := by
  match outcome with
  | .ok (content, contentType, contentLength) => exact ⟨rfl, rfl, rfl⟩
  | .error e => exact ⟨rfl, rfl, rfl⟩

theorem updateAvgScore_fields (st : NavState) :
    (updateAvgScore st).queue = st.queue
    ∧ (updateAvgScore st).visited = st.visited
    ∧ (updateAvgScore st).fetched = st.fetched := by
  unfold updateAvgScore
  split
  · exact ⟨rfl, rfl, rfl⟩
  · exact ⟨rfl, rfl, rfl⟩

theorem processNewLinks_queue_length (env : NavEnv) (config : CrawlConfig) (d : Nat)
    (kws : List String) (cand : LinkCandidate) (content : String) (st : NavState)
    (h : st.queue.length ≤ config.page_budget) :
    (processNewLinks env config d kws cand content st).queue.length ≤ config.page_budget := by
  unfold processNewLinks
  dsimp only
  split
  · split
    · exact h
    · unfold add_to_queue
      exact addToQueueAux_length_le _ _ _ h
  · exact h

theorem processNewLinks_other_fields (env : NavEnv) (config : CrawlConfig) (d : Nat)
    (kws : List String) (cand : LinkCandidate) (content : String) (st : NavState) :
    (processNewLinks env config d kws cand content st).visited = st.visited
    ∧ (processNewLinks env config d kws cand content st).fetched = st.fetched := by
  unfold processNewLinks
  dsimp only
  split
  · split
    · exact ⟨rfl, rfl⟩
    · unfold add_to_queue
      exact (addToQueueAux_other_fields _ _ _)
  · exact ⟨rfl, rfl⟩

theorem processNewLinks_queue_mem (env : NavEnv) (config : CrawlConfig) (d : Nat)
    (kws : List String) (cand : LinkCandidate) (content : String) (st : NavState)
    (x : LinkCandidate)
    (hx : x ∈ (processNewLinks env config d kws cand content st).queue) :
    x ∈ st.queue ∨ mkRat 1 10 ≤ x.score := by
  unfold processNewLinks at hx
  dsimp only at hx
  split at hx
  · split at hx
    · left; exact hx
    · unfold add_to_queue at hx
      have h2 := addToQueueAux_mem _ _ _ x hx
      rcases h2 with h2 | h2
      · left; exact h2
      · right; exact h2
  · left; exact hx

theorem navStep_queue_length (env : NavEnv) (config : CrawlConfig) (d : Nat)
    (kws : List String) (st : NavState) (h : st.queue.length ≤ config.page_budget) :
    (navStep env config d kws st).queue.length ≤ config.page_budget := by
  unfold navStep
  cases hpop : popMax st.queue with
  | none => exact h
  | some pr =>
    obtain ⟨cand, rest⟩ := pr
    have hrest : rest.length + 1 = st.queue.length := (popMax_spec _ _ _ hpop).2.2
    dsimp only
    split
    · dsimp only
      omega
    · cases hfo : env.fetchOutcome cand.url with
      | error e =>
        dsimp only [fetch_page_inner]
        omega
      | ok v =>
        obtain ⟨content, ctype, clen⟩ := v
        dsimp only [fetch_page_inner]
        rw [(updateAvgScore_fields _).1]
        apply processNewLinks_queue_length
        dsimp only
        omega

theorem navStep_scores (env : NavEnv) (config : CrawlConfig) (d : Nat) (kws : List String)
    (st : NavState)
    (hq : ∀ c ∈ st.queue, mkRat 1 10 ≤ c.score)
    (hf : ∀ c ∈ st.fetched, mkRat 1 10 ≤ c.score) :
    (∀ c ∈ (navStep env config d kws st).queue, mkRat 1 10 ≤ c.score)
    ∧ (∀ c ∈ (navStep env config d kws st).fetched, mkRat 1 10 ≤ c.score) := by
  unfold navStep
  cases hpop : popMax st.queue with
  | none => exact ⟨hq, hf⟩
  | some pr =>
    obtain ⟨cand, rest⟩ := pr
    obtain ⟨hcand, hrestsub, _⟩ := popMax_spec _ _ _ hpop
    dsimp only
    split
    · exact ⟨fun c hc => hq c (hrestsub c hc), hf⟩
    · cases hfo : env.fetchOutcome cand.url with
      | error e =>
        dsimp only [fetch_page_inner]
        exact ⟨fun c hc => hq c (hrestsub c hc), hf⟩
      | ok v =>
        obtain ⟨content, ctype, clen⟩ := v
        dsimp only [fetch_page_inner]
        constructor
        · intro c hc
          rw [(updateAvgScore_fields _).1] at hc
          have hmem := processNewLinks_queue_mem _ _ _ _ _ _ _ c hc
          rcases hmem with h | h
          · exact hq c (hrestsub c h)
          · exact h
        · intro c hc
          rw [(updateAvgScore_fields _).2.2,
            (processNewLinks_other_fields _ _ _ _ _ _ _).2] at hc
          dsimp only at hc
          rw [List.mem_append] at hc
          rcases hc with h | h
          · exact hf c h
          · rw [List.mem_singleton] at h
            rw [h]
            exact hq cand hcand

theorem navStep_fetch_once (env : NavEnv) (config : CrawlConfig) (d : Nat)
    (kws : List String) (st : NavState)
    (hnodup : (st.fetched.map (fun c => c.url)).Nodup)
    (hsub : ∀ c ∈ st.fetched, c.url ∈ st.visited) :
    ((navStep env config d kws st).fetched.map (fun c => c.url)).Nodup
    ∧ (∀ c ∈ (navStep env config d kws st).fetched,
        c.url ∈ (navStep env config d kws st).visited) := by
  unfold navStep
  cases hpop : popMax st.queue with
  | none => exact ⟨hnodup, hsub⟩
  | some pr =>
    obtain ⟨cand, rest⟩ := pr
    dsimp only
    split
    · exact ⟨hnodup, hsub⟩
    · next hvis =>
      have hnotmem : cand.url ∉ st.visited := by simpa using hvis
      cases hfo : env.fetchOutcome cand.url with
      | error e =>
        dsimp only [fetch_page_inner]
        exact ⟨hnodup, fun c hc => List.mem_cons_of_mem _ (hsub c hc)⟩
      | ok v =>
        obtain ⟨content, ctype, clen⟩ := v
        dsimp only [fetch_page_inner]
        constructor
        · rw [(updateAvgScore_fields _).2.2,
            (processNewLinks_other_fields _ _ _ _ _ _ _).2]
          dsimp only
          rw [List.map_append]
          apply List.Nodup.append hnodup (by simp)
          intro a ha hb
          rw [List.mem_map] at ha
          obtain ⟨c, hcmem, hcurl⟩ := ha
          rw [List.map_singleton, List.mem_singleton] at hb
          apply hnotmem
          rw [← hb, ← hcurl]
          exact hsub c hcmem
        · intro c hc
          rw [(updateAvgScore_fields _).2.2,
            (processNewLinks_other_fields _ _ _ _ _ _ _).2] at hc
          rw [(updateAvgScore_fields _).2.1,
            (processNewLinks_other_fields _ _ _ _ _ _ _).1]
          dsimp only at hc ⊢
          rw [List.mem_append] at hc
          rcases hc with h | h
          · exact List.mem_cons_of_mem _ (hsub c h)
          · rw [List.mem_singleton] at h
            rw [h]
            exact List.mem_cons_self _ _

theorem navigateLoop_queue_length (env : NavEnv) (config : CrawlConfig) (d : Nat)
    (kws : List String) :
    ∀ (fuel stepIdx : Nat) (st : NavState), st.queue.length ≤ config.page_budget →
      (navigateLoop env config d kws fuel stepIdx st).queue.length ≤ config.page_budget := by
  intro fuel
  induction fuel with
  | zero => intro _ st h; exact h
  | succ n ih =>
    intro stepIdx st h
    unfold navigateLoop
    split
    · exact h
    split
    · exact h
    split
    · exact h
    exact ih _ _ (navStep_queue_length _ _ _ _ _ h)

theorem navigateLoop_scores (env : NavEnv) (config : CrawlConfig) (d : Nat)
    (kws : List String) :
    ∀ (fuel stepIdx : Nat) (st : NavState),
      (∀ c ∈ st.queue, mkRat 1 10 ≤ c.score) →
      (∀ c ∈ st.fetched, mkRat 1 10 ≤ c.score) →
      (∀ c ∈ (navigateLoop env config d kws fuel stepIdx st).queue, mkRat 1 10 ≤ c.score)
      ∧ (∀ c ∈ (navigateLoop env config d kws fuel stepIdx st).fetched,
          mkRat 1 10 ≤ c.score) := by
  intro fuel
  induction fuel with
  | zero => intro _ st hq hf; exact ⟨hq, hf⟩
  | succ n ih =>
    intro stepIdx st hq hf
    unfold navigateLoop
    split
    · exact ⟨hq, hf⟩
    split
    · exact ⟨hq, hf⟩
    split
    · exact ⟨hq, hf⟩
    obtain ⟨hq2, hf2⟩ := navStep_scores env config d kws st hq hf
    exact ih _ _ hq2 hf2

theorem navigateLoop_fetch_once (env : NavEnv) (config : CrawlConfig) (d : Nat)
    (kws : List String) :
    ∀ (fuel stepIdx : Nat) (st : NavState),
      ((st.fetched.map (fun c => c.url)).Nodup) →
      (∀ c ∈ st.fetched, c.url ∈ st.visited) →
      (((navigateLoop env config d kws fuel stepIdx st).fetched.map (fun c => c.url)).Nodup)
      ∧ (∀ c ∈ (navigateLoop env config d kws fuel stepIdx st).fetched,
          c.url ∈ (navigateLoop env config d kws fuel stepIdx st).visited) := by
  intro fuel
  induction fuel with
  | zero => intro _ st hn hs; exact ⟨hn, hs⟩
  | succ n ih =>
    intro stepIdx st hn hs
    unfold navigateLoop
    split
    · exact ⟨hn, hs⟩
    split
    · exact ⟨hn, hs⟩
    split
    · exact ⟨hn, hs⟩
    obtain ⟨hn2, hs2⟩ := navStep_fetch_once env config d kws st hn hs
    exact ih _ _ hn2 hs2

/-- C2: in every crawl session — any environment, configuration,
keyword list, seed and number of loop iterations — the sequence of URLs
fetched by `navigate` has no repeats: membership in the session's
visited set is checked before every fetch (and on extraction before
every enqueue), and a URL enters the visited set before it is
fetched. -/
theorem navigate_never_fetches_url_twice (env : NavEnv) (config : CrawlConfig) (d : Nat)
    (kws : List String) (start_url : String) (fuel : Nat) :
    ((navigate env config d kws start_url fuel).fetched.map (fun c => c.url)).Nodup := by
  unfold navigate
  exact (navigateLoop_fetch_once env config d kws fuel 0 (initialNavState start_url)
    (by simp [initialNavState]) (by simp [initialNavState])).1

/-- C8: the navigator's priority queue never holds more than
`page_budget` candidates.  First conjunct: the enqueue loop of
`_add_to_queue` preserves the bound on any state.  Second conjunct:
under the validated precondition `page_budget ≥ 1` (so that the initial
seed push, which makes the queue length 1, respects the bound), the
queue stays within the budget after any number of loop iterations,
i.e. at every point of the session. -/
theorem queue_never_exceeds_page_budget :
    (∀ (page_budget : Nat) (cands : List LinkCandidate) (st : NavState),
      st.queue.length ≤ page_budget →
      (addToQueueAux page_budget cands st).queue.length ≤ page_budget)
    ∧ (∀ (env : NavEnv) (config : CrawlConfig) (d : Nat) (kws : List String)
        (start_url : String) (fuel : Nat), 1 ≤ config.page_budget →
      (navigate env config d kws start_url fuel).queue.length ≤ config.page_budget) := by
  constructor
  · exact fun B cands st h => addToQueueAux_length_le B cands st h
  · intro env config d kws start_url fuel h
    unfold navigate
    apply navigateLoop_queue_length
    simpa [initialNavState] using h

/-- C10: a link candidate whose score is below 0.1 is never admitted to
the queue and is never fetched.  First conjunct: anything the enqueue
loop puts into the queue either was already there or has score ≥ 0.1.
Second and third conjuncts: every candidate in the queue at any point
of any session (the seed enters with score 1.0), and hence every
fetched candidate, has score ≥ 0.1. -/
theorem low_score_candidate_never_queued_or_fetched :
    (∀ (config : CrawlConfig) (st : NavState) (cands : List LinkCandidate)
        (x : LinkCandidate), x ∈ (add_to_queue config st cands).queue →
      x ∈ st.queue ∨ mkRat 1 10 ≤ x.score)
    ∧ (∀ (env : NavEnv) (config : CrawlConfig) (d : Nat) (kws : List String)
        (start_url : String) (fuel : Nat) (c : LinkCandidate),
        c ∈ (navigate env config d kws start_url fuel).queue → mkRat 1 10 ≤ c.score)
    ∧ (∀ (env : NavEnv) (config : CrawlConfig) (d : Nat) (kws : List String)
        (start_url : String) (fuel : Nat) (c : LinkCandidate),
        c ∈ (navigate env config d kws start_url fuel).fetched → mkRat 1 10 ≤ c.score) := by
  refine ⟨?_, ?_, ?_⟩
  · intro config st cands x hx
    unfold add_to_queue at hx
    exact addToQueueAux_mem _ _ _ x hx
  · intro env config d kws start_url fuel c hc
    refine (navigateLoop_scores env config d kws fuel 0 (initialNavState start_url)
      ?_ ?_).1 c hc
    · intro x hx
      simp only [initialNavState, List.mem_singleton] at hx
      rw [hx]
      exact (by decide : mkRat 1 10 ≤ (1 : ℚ))
    · intro x hx
      simp [initialNavState] at hx
  · intro env config d kws start_url fuel c hc
    refine (navigateLoop_scores env config d kws fuel 0 (initialNavState start_url)
      ?_ ?_).2 c hc
    · intro x hx
      simp only [initialNavState, List.mem_singleton] at hx
      rw [hx]
      exact (by decide : mkRat 1 10 ≤ (1 : ℚ))
    · intro x hx
      simp [initialNavState] at hx

/-- A minimal concrete environment for exercising the navigator: one
host, no outgoing links, instantly successful fetches. -/
def demoEnv : NavEnv :=
  { urlparse := fun _ => { scheme := "http", netloc := "example.com", path := "/" }
    normalize_url := fun href _ => href
    robotsAllowed := fun _ => true
    rawLinks := fun _ _ => []
    urlKeywords := fun _ => []
    scoreBatch := fun cands => cands.map (fun _ => 0)
    fetchOutcome := fun _ => .ok ("", "text/html", 0)
    md5Int := fun _ => 0
    timedOut := fun _ => false }

/-- A concrete validated configuration (`page_budget = 2`). -/
def demoConfig : CrawlConfig := { max_depth := 1, page_budget := 2, char_budget := 10000 }

/-- Witness for C8: at the concrete session (budget 2, seed only) the
precondition `1 ≤ page_budget` holds and the queue bound follows. -/
theorem queue_never_exceeds_page_budget_witness :
    (navigate demoEnv demoConfig 1 ["api"] "http://example.com/" 5).queue.length ≤
      demoConfig.page_budget :=
  queue_never_exceeds_page_budget.2 demoEnv demoConfig 1 ["api"] "http://example.com/" 5
    (by decide)

/-- Witness for C10: in the concrete one-page session the seed candidate
is fetched, and the theorem yields its score bound. -/
theorem low_score_candidate_never_queued_or_fetched_witness :
    startCandidate "http://example.com/" ∈
      (navigate demoEnv demoConfig 1 ["api"] "http://example.com/" 1).fetched
    ∧ mkRat 1 10 ≤ (startCandidate "http://example.com/").score :=
  ⟨by decide,
   low_score_candidate_never_queued_or_fetched.2.2 demoEnv demoConfig 1 ["api"]
     "http://example.com/" 1 (startCandidate "http://example.com/") (by decide)⟩
